import Mathlib

/-!
Shallow embedding of the scene-management core of the SpartanEngine
(Directus) repository, file `src/Runtime/Core/Scene.cpp`, together with the
minimal entity / transform / serializer model that `Scene.cpp` manipulates.

Only `Scene.cpp` of the scene core is present in the sources; the
`GameObject`, `Transform`, `Serializer`, `FileSystem` and `Camera` classes
are declared and called there but their implementations are not in the
source tree, so those parts are modelled from the specification (each such
definition carries a doc comment starting `Modelled from the spec:`).

Numeric convention: the C++ code computes with `float`; the embedding uses
exact rationals (`ℚ`).  Square roots are eliminated by comparing squared
quantities: the code only ever compares `sqrt e < c` with `c ≥ 0`, which over
the reals is equivalent to `e < c^2`, and normalising a ray direction only
scales the ray-sphere discriminant by a positive factor, leaving its sign
unchanged.  Both reductions are noted again at the definitions that use them.
-/

namespace SpartanScene

/-- Modelled from the spec: the light component's type (`Light.h` is not in
the sources; the scene code distinguishes `Directional` and `Point`). -/
inductive LightType where
  | Directional : LightType
  | Point : LightType
deriving DecidableEq, Repr

/-- Exact-rational stand-in for the engine's `Math::Vector3`. -/
structure Vec3 where
  x : ℚ
  y : ℚ
  z : ℚ
deriving DecidableEq, Repr

/-- Modelled from the spec: an entity (`GameObject.h/.cpp` are not in the
sources).  Per the spec's data model an entity has a unique string
identifier, a display name, a hierarchy-visibility flag and a set of
capability components; exactly one Transform is attached implicitly, whose
hierarchy link we record as the parent entity's identifier (`none` = root)
and whose world position we store directly.  Components relevant to the
scene code are recorded as capability flags (`HasComponent<T>`), the light
component with its type, and the mesh filter's bounding-box extents. -/
structure GameObject where
  id : String
  name : String
  hierarchyVisible : Bool
  hasCamera : Bool
  hasSkybox : Bool
  hasMeshRenderer : Bool
  hasMeshFilter : Bool
  light : Option LightType
  parent : Option String
  position : Vec3
  boundingBox : Vec3
deriving DecidableEq, Repr

/-- Modelled from the spec: the children of the transform with owner `id`
are the registry entities whose parent link names `id` (parent/child sets
are mutually consistent per the Transform invariant). -/
def childrenOf (gs : List GameObject) (id : String) : List GameObject :=
  gs.filter (fun g => g.parent == some id)

/-- Modelled from the spec: recursive pre-order collection of a transform's
descendants (`Transform::GetDescendants`), with fuel bounding the recursion
depth (the hierarchy of a finite registry has depth at most its size). -/
def descendantsAux (gs : List GameObject) : Nat → String → List GameObject
  | 0, _ => []
  | fuel + 1, id =>
      (childrenOf gs id).flatMap (fun c => c :: descendantsAux gs fuel c.id)

/-- Modelled from the spec: all descendants of the entity with identifier
`id`, collected pre-order through the Transform hierarchy. -/
def descendants (gs : List GameObject) (id : String) : List GameObject :=
  descendantsAux gs gs.length id

/-- The four derived caches plus the two active references kept by `Scene`
(`m_renderables`, `m_lightsDirectional`, `m_lightsPoint`, `m_mainCamera`,
`m_skybox`). -/
structure Caches where
  renderables : List GameObject
  lightsDirectional : List GameObject
  lightsPoint : List GameObject
  mainCamera : Option GameObject
  skybox : Option GameObject
deriving DecidableEq, Repr

/-- The state of the caches right after `Resolve` clears them. -/
def emptyCaches : Caches :=
  { renderables := []
    lightsDirectional := []
    lightsPoint := []
    mainCamera := none
    skybox := none }

/-- The loop body of `Scene::Resolve` for one registry entity, in source
order: camera, skybox, renderables, then lights (`Directional` pushed to the
directional list, else `Point` pushed to the point list). -/
def resolveStep (c : Caches) (g : GameObject) : Caches :=
  let c1 := if g.hasCamera then { c with mainCamera := some g } else c
  let c2 := if g.hasSkybox then { c1 with skybox := some g } else c1
  let c3 :=
    if g.hasMeshRenderer && g.hasMeshFilter then
      { c2 with renderables := c2.renderables ++ [g] }
    else c2
  match g.light with
  | some LightType.Directional =>
      { c3 with lightsDirectional := c3.lightsDirectional ++ [g] }
  | some LightType.Point =>
      { c3 with lightsPoint := c3.lightsPoint ++ [g] }
  | none => c3

/-- `Scene::Resolve`: clear every derived cache and the two active
references, then rebuild them in a single pass over the registry in order. -/
def resolve (gs : List GameObject) : Caches :=
  gs.foldl resolveStep emptyCaches

/-- The mutable state of `Scene` that the claims touch: the owning registry
`m_gameObjects`, the derived caches, and (standing in for the resource
manager subsystem) the list of loaded resource file paths. -/
structure Scene where
  gameObjects : List GameObject
  caches : Caches
  resourcePaths : List String
deriving DecidableEq, Repr

/-- `Scene::Clear`: destroy every entity, clear all caches, null the active
camera and skybox, and (modelled) unload the resource cache. -/
def clearScene (_s : Scene) : Scene :=
  { gameObjects := []
    caches := emptyCaches
    resourcePaths := [] }

/-- `Scene::CreateGameObject`: append a newly allocated entity to the
registry and re-resolve.  The freshly constructed entity is a parameter
(its identifier is generated outside `Scene.cpp`). -/
def sceneCreateGameObject (s : Scene) (g : GameObject) : Scene :=
  let gs := s.gameObjects ++ [g]
  { s with gameObjects := gs, caches := resolve gs }

/-- `Scene::GetRootGameObjects`: the registry entities whose transform is a
root (no parent). -/
def getRootGameObjects (s : Scene) : List GameObject :=
  s.gameObjects.filter (fun g => g.parent == none)

/-- `Scene::GetGameObjectByName`: linear scan, first name match, null when
absent. -/
def getGameObjectByName (gs : List GameObject) (name : String) : Option GameObject :=
  match gs with
  | [] => none
  | g :: rest => if g.name = name then some g else getGameObjectByName rest name

/-- `Scene::GetGameObjectByID`: linear scan, first identifier match, null
when absent. -/
def getGameObjectByID (gs : List GameObject) (ID : String) : Option GameObject :=
  match gs with
  | [] => none
  | g :: rest => if g.id = ID then some g else getGameObjectByID rest ID

/-- `Scene::GameObjectExists`: false for a null argument, otherwise true iff
`GetGameObjectByID` finds the argument's identifier. -/
def gameObjectExists (gs : List GameObject) : Option GameObject → Bool
  | none => false
  | some g => (getGameObjectByID gs g.id).isSome

/-- The erase loop of `Scene::RemoveSingleGameObject` on the registry list:
delete the first entity whose identifier matches, leave the rest. -/
def removeSingleGameObject (gs : List GameObject) (id : String) : List GameObject :=
  match gs with
  | [] => []
  | g :: rest => if g.id = id then rest else g :: removeSingleGameObject rest id

/-- `Scene::RemoveSingleGameObject` at scene level: a null argument is
ignored; otherwise erase the first identifier match and, if an entity was
actually erased, re-resolve (the loop calls `Resolve` only after an erase). -/
def sceneRemoveSingle (s : Scene) : Option GameObject → Scene
  | none => s
  | some g =>
      if s.gameObjects.any (fun t => t.id == g.id) then
        let gs := removeSingleGameObject s.gameObjects g.id
        { s with gameObjects := gs, caches := resolve gs }
      else s

/-- `Scene::RemoveGameObject`: a null argument is ignored; otherwise collect
the entity's descendants through the Transform hierarchy, remove each by
identifier, then remove the entity itself.  The final
`ResolveChildrenRecursively` on the former parent rebuilds child-set
bookkeeping only; child links are derived from parent identifiers in this
embedding, so it does not change the state. -/
def sceneRemoveGameObject (s : Scene) : Option GameObject → Scene
  | none => s
  | some g =>
      let ds := descendants s.gameObjects g.id
      let s1 := ds.foldl (fun acc d => sceneRemoveSingle acc (some d)) s
      sceneRemoveSingle s1 (some g)

/-- Modelled from the spec: one primitive value of the `Serializer` binary
stream (the `Serializer` class is not in the sources).  Integers, strings and
(for the float fields of components) exact rationals. -/
inductive Token where
  | int : Int → Token
  | str : String → Token
  | rat : ℚ → Token
deriving DecidableEq, Repr

/-- Modelled from the spec: the canonical scene file extension appended by
`SaveToFile` (`SCENE_EXTENSION`; its text is not in the sources). -/
def sceneExtension : String := ".directus"

/-- Modelled from the spec: `Serializer::WriteVectorSTR`, a count followed by
that many strings. -/
def writeVectorSTR (v : List String) : List Token :=
  Token.int v.length :: v.map Token.str

/-- Modelled from the spec: read `n` consecutive strings from the stream. -/
def readStrings : Nat → List Token → Option (List String × List Token)
  | 0, ts => some ([], ts)
  | n + 1, Token.str s :: ts =>
      match readStrings n ts with
      | some (ss, rest) => some (s :: ss, rest)
      | none => none
  | _ + 1, _ => none

/-- Modelled from the spec: `Serializer::ReadVectorSTR`, the inverse of
`writeVectorSTR`. -/
def readVectorSTR (ts : List Token) : Option (List String × List Token) :=
  match ts with
  | Token.int n :: rest => readStrings n.toNat rest
  | _ => none

/-- Encoding of a boolean field in the stream. -/
def boolTok (b : Bool) : Token :=
  Token.int (if b then 1 else 0)

/-- Encoding of the optional light component in the stream. -/
def lightTok : Option LightType → Token
  | none => Token.int 0
  | some LightType.Directional => Token.int 1
  | some LightType.Point => Token.int 2

/-- Decoding of the optional light component. -/
def decodeLight : Int → Option LightType
  | 1 => some LightType.Directional
  | 2 => some LightType.Point
  | _ => none

/-- Modelled from the spec: the fixed-size head of one entity record —
identifier, name, component data (flags, light, transform position, mesh
filter bounding box) — before the child count and the recursively embedded
child records. -/
def gameObjectHeader (g : GameObject) : List Token :=
  [Token.str g.id, Token.str g.name, boolTok g.hierarchyVisible,
   boolTok g.hasCamera, boolTok g.hasSkybox, boolTok g.hasMeshRenderer,
   boolTok g.hasMeshFilter, lightTok g.light,
   Token.rat g.position.x, Token.rat g.position.y, Token.rat g.position.z,
   Token.rat g.boundingBox.x, Token.rat g.boundingBox.y, Token.rat g.boundingBox.z]

/-- Modelled from the spec: `GameObject::Serialize` (not in the sources) —
one entity record: header, child count, then each child's record embedded
recursively (non-root entities are only ever embedded this way).  The fuel
bounds the recursion depth. -/
def serializeGO (gs : List GameObject) : Nat → GameObject → List Token
  | 0, _ => []
  | fuel + 1, g =>
      let kids := childrenOf gs g.id
      gameObjectHeader g ++ [Token.int kids.length]
        ++ kids.flatMap (serializeGO gs fuel)

/-- Modelled from the spec: `GameObject::Deserialize` (not in the sources) —
parse `n` consecutive sibling entity records with the given parent link,
returning the entities in pre-order (each entity followed by its own
descendants, the order the engine appends a subtree to the registry) and
the remaining stream.  The fuel, consumed on every recursive step, bounds
the total number of records; structural recursion on it keeps the parser
kernel-reducible. -/
def deserializeFlat : Nat → Option String → Nat → List Token → Option (List GameObject × List Token)
  | 0, _, _, _ => none
  | _ + 1, _, 0, ts => some ([], ts)
  | fuel + 1, parent, n + 1, ts =>
      match ts with
      | Token.str id :: Token.str name :: Token.int hv :: Token.int hc ::
        Token.int hs :: Token.int hmr :: Token.int hmf :: Token.int li ::
        Token.rat px :: Token.rat py :: Token.rat pz ::
        Token.rat bx :: Token.rat bby :: Token.rat bz ::
        Token.int nKids :: rest =>
          let g : GameObject :=
            { id := id, name := name, hierarchyVisible := hv == 1
              hasCamera := hc == 1, hasSkybox := hs == 1
              hasMeshRenderer := hmr == 1, hasMeshFilter := hmf == 1
              light := decodeLight li, parent := parent
              position := ⟨px, py, pz⟩, boundingBox := ⟨bx, bby, bz⟩ }
          match deserializeFlat fuel (some id) nKids.toNat rest with
          | some (descs, rest1) =>
              match deserializeFlat fuel parent n rest1 with
              | some (sibs, rest2) => some (g :: descs ++ sibs, rest2)
              | none => none
          | none => none
      | _ => none

/-- The token stream `Scene::SaveToFile` writes: the loaded resource paths,
the root count, the root identifiers, then each root entity serialized
recursively. -/
def sceneFileTokens (s : Scene) : List Token :=
  writeVectorSTR s.resourcePaths
    ++ [Token.int (getRootGameObjects s).length]
    ++ (getRootGameObjects s).map (fun r => Token.str r.id)
    ++ (getRootGameObjects s).flatMap (serializeGO s.gameObjects s.gameObjects.length)

/-- Modelled from the spec: the collaborators of save/load — the file store
(`FileSystem::FileExists` holds iff `files` is `some`) and whether a write
or read stream can be opened on a path (`Serializer::StartWriting` /
`StartReading`). -/
structure Env where
  files : String → Option (List Token)
  writeOk : String → Bool
  readOk : String → Bool

/-- `Scene::SaveToFile`: append the scene extension when absent, flush
resource metadata (no observable registry effect), fail when the write
stream cannot open, otherwise write the scene file and report success. -/
def saveToFile (env : Env) (s : Scene) (filePathIn : String) : Bool × Env :=
  let filePath :=
    if filePathIn.endsWith sceneExtension then filePathIn
    else filePathIn ++ sceneExtension
  if env.writeOk filePath then
    (true,
     { env with
       files := fun p => if p = filePath then some (sceneFileTokens s) else env.files p })
  else (false, env)

/-- Modelled from the spec: the second phase of `Scene::LoadFromFile` —
deserialize the given number of root records, returning the roots in order
and, separately, the concatenated descendant blocks, which the engine
appends to the registry after the pre-created root entries. -/
def loadRoots (fuel : Nat) : Nat → List Token → Option (List GameObject × List GameObject × List Token)
  | 0, ts => some ([], [], ts)
  | n + 1, ts =>
      match deserializeFlat fuel none 1 ts with
      | some (r :: ds, rest) =>
          match loadRoots fuel n rest with
          | some (rs, dss, rest2) => some (r :: rs, ds ++ dss, rest2)
          | none => none
      | some ([], _) => none
      | none => none

/-- `Scene::LoadFromFile`: fail (registry untouched) when the file does not
exist; otherwise `Clear()` first, then a first read pass for the resource
paths (loading each, modelled as recording the path list), then a second
read pass from the start of the file that skips the resource paths and
reads the root count, the root identifiers, and the root records; finally
re-resolve.  A stream that cannot open after `Clear()` leaves the registry
empty.  Malformed streams are not guarded in the C++ (an open risk per the
spec); the embedding reports `false` for them with the post-`Clear` state. -/
def loadFromFile (env : Env) (s : Scene) (filePath : String) : Bool × Scene :=
  match env.files filePath with
  | none => (false, s)
  | some ts =>
      let s1 := clearScene s
      if env.readOk filePath then
        match readVectorSTR ts with
        | none => (false, s1)
        | some (paths, _) =>
            let s2 := { s1 with resourcePaths := paths }
            if env.readOk filePath then
              match readVectorSTR ts with
              | none => (false, s2)
              | some (_, afterPaths) =>
                  match afterPaths with
                  | Token.int rootCount :: afterCount =>
                      match readStrings rootCount.toNat afterCount with
                      | none => (false, s2)
                      | some (_, afterIds) =>
                          match loadRoots (afterIds.length + 1) rootCount.toNat afterIds with
                          | some (roots, descs, _) =>
                              let gs := roots ++ descs
                              (true, { s2 with gameObjects := gs, caches := resolve gs })
                          | none => (false, s2)
                  | _ => (false, s2)
            else (false, s2)
      else (false, s1)

/-- Modelled from the spec: the data `MousePick` draws from the active
camera's components (the `Camera` class is not in the sources) — the
unprojection through the inverted view-projection matrix, the near and far
plane depths, and the camera transform's world position and forward
vector. -/
structure CameraData where
  unproject : Vec3 → Vec3
  nearPlane : ℚ
  farPlane : ℚ
  position : Vec3
  forward : Vec3

/-- `Scene::RaySphereIntersect`: sign test of the quadratic discriminant of
the ray against a sphere of the given radius centred at the origin (the
code never offsets by the entity's position). -/
def raySphereIntersect (rayOrigin rayDirection : Vec3) (radius : ℚ) : Bool :=
  let a := rayDirection.x * rayDirection.x + rayDirection.y * rayDirection.y
             + rayDirection.z * rayDirection.z
  let b := (rayDirection.x * rayOrigin.x + rayDirection.y * rayOrigin.y
             + rayDirection.z * rayOrigin.z) * 2
  let c := (rayOrigin.x * rayOrigin.x + rayOrigin.y * rayOrigin.y
             + rayOrigin.z * rayOrigin.z) - radius * radius
  let discriminant := b ^ 2 - 4 * a * c
  if discriminant < 0 then false else true

/-- The pick-sphere radius of a renderable: the largest absolute component
of the mesh filter's bounding-box extents. -/
def boundingRadius (extent : Vec3) : ℚ :=
  max (max |extent.x| |extent.y|) |extent.z|

/-- The world-space pick ray of `MousePick`: mouse coordinates mapped to
normalised device coordinates, near and far points unprojected, and the
direction taken as their difference.  The code normalises the direction;
the embedding keeps it unnormalised, since scaling a ray direction by a
positive factor multiplies the ray-sphere discriminant by the square of
that factor and cannot change the intersection booleans. -/
def pickRay (cam : CameraData) (mousePos : ℚ × ℚ) (resW resH : ℚ) : Vec3 × Vec3 :=
  let mx := 2 * mousePos.1 / resW - 1
  let my := (2 * mousePos.2 / resH - 1) * (-1)
  let rayOrigin := cam.unproject ⟨mx, my, cam.nearPlane⟩
  let rayEnd := cam.unproject ⟨mx, my, cam.farPlane⟩
  (rayOrigin,
   ⟨rayEnd.x - rayOrigin.x, rayEnd.y - rayOrigin.y, rayEnd.z - rayOrigin.z⟩)

/-- The intersection-test loop of `MousePick`: skip the skybox; a renderable
enters the candidate list when the pick ray intersects its bounding sphere
AND the ray from the camera position along the camera forward vector does
NOT intersect it (the `if (!RaySphereIntersect(...))` guard in the code). -/
def pickLoop (rayOrigin rayDirection : Vec3) (cam : CameraData) :
    List GameObject → List GameObject
  | [] => []
  | g :: rest =>
      if g.hasSkybox then pickLoop rayOrigin rayDirection cam rest
      else
        let radius := boundingRadius g.boundingBox
        if raySphereIntersect rayOrigin rayDirection radius then
          if !raySphereIntersect cam.position cam.forward radius then
            g :: pickLoop rayOrigin rayDirection cam rest
          else pickLoop rayOrigin rayDirection cam rest
        else pickLoop rayOrigin rayDirection cam rest

/-- The candidate set reaching the closest-selection stage of `MousePick`. -/
def pickCandidates (cam : CameraData) (renderables : List GameObject)
    (mousePos : ℚ × ℚ) (resW resH : ℚ) : List GameObject :=
  let ray := pickRay cam mousePos resW resH
  pickLoop ray.1 ray.2 cam renderables

/-- The squared camera-to-entity distance.  The code computes
`sqrt((bx-ax)^2+(by-ay)^2+(bz-az)^2)` and only ever compares such values
with each other and with the constant 1000; the embedding compares the
squares (the square root is strictly monotone on nonnegatives), with the
constant squared to 1000000. -/
def distanceSq (cam : CameraData) (g : GameObject) : ℚ :=
  (cam.position.x - g.position.x) ^ 2 + (cam.position.y - g.position.y) ^ 2
    + (cam.position.z - g.position.z) ^ 2

/-- The closest-selection loop of `MousePick`: the running minimum starts at
1000 (squared: 1000000) and a candidate strictly closer than the running
minimum becomes the current result. -/
def findClosest (cam : CameraData) (minDistSq : ℚ) (best : Option GameObject) :
    List GameObject → Option GameObject
  | [] => best
  | g :: rest =>
      if distanceSq cam g < minDistSq then
        findClosest cam (distanceSq cam g) (some g) rest
      else findClosest cam minDistSq best rest

/-- `Scene::MousePick`: run the intersection tests over the resolved
renderables, then select the closest surviving candidate. -/
def mousePick (cam : CameraData) (s : Scene) (mousePos : ℚ × ℚ) (resW resH : ℚ) :
    Option GameObject :=
  findClosest cam 1000000 none (pickCandidates cam s.caches.renderables mousePos resW resH)

/-- Modelled from the spec claim: the candidate set as the C7 sentence
describes it — "only candidates passing both intersection tests reach the
closest-selection stage", i.e. a non-skybox renderable is kept exactly when
the pick ray AND the camera-forward ray both intersect its bounding
sphere.  Stated for comparison with `pickCandidates`, which embeds the
code. -/
def pickCandidatesClaimed (cam : CameraData) (renderables : List GameObject)
    (mousePos : ℚ × ℚ) (resW resH : ℚ) : List GameObject :=
  let ray := pickRay cam mousePos resW resH
  renderables.filter (fun g =>
    !g.hasSkybox
      && raySphereIntersect ray.1 ray.2 (boundingRadius g.boundingBox)
      && raySphereIntersect cam.position cam.forward (boundingRadius g.boundingBox))

/-! ## Scene operations as a transition system (for the invariance claims) -/

/-- `Scene::Resolve` as a scene transition: recompute the caches from the
current registry (the registry itself is untouched). -/
def sceneResolve (s : Scene) : Scene :=
  { s with caches := resolve s.gameObjects }

/-- One structural mutation of the registry: `CreateGameObject` (with the
newly allocated entity) or `RemoveGameObject` (with its possibly-null
argument). -/
inductive SceneOp where
  | create : GameObject → SceneOp
  | remove : Option GameObject → SceneOp

/-- Run one mutation. -/
def applyOp (s : Scene) : SceneOp → Scene
  | SceneOp.create g => sceneCreateGameObject s g
  | SceneOp.remove g => sceneRemoveGameObject s g

/-- Run a sequence of mutations. -/
def applyOps (s : Scene) (ops : List SceneOp) : Scene :=
  ops.foldl applyOp s

/-! ## Concrete test fixtures used by witnesses and counterexamples -/

/-- An entity with no optional components, used to build concrete scenes. -/
def baseEntity (id : String) (parent : Option String) : GameObject :=
  { id := id, name := id, hierarchyVisible := true
    hasCamera := false, hasSkybox := false, hasMeshRenderer := false
    hasMeshFilter := false, light := none, parent := parent
    position := ⟨0, 0, 0⟩, boundingBox := ⟨0, 0, 0⟩ }

/-- Entity A of the round-trip scenario: a root carrying a Camera. -/
def rtA : GameObject :=
  { baseEntity "A" none with hasCamera := true }

/-- Entity B of the round-trip scenario: a root carrying a directional
Light. -/
def rtB : GameObject :=
  { baseEntity "B" none with light := some LightType.Directional }

/-- Entity C of the round-trip scenario: a child of B carrying MeshRenderer
and MeshFilter. -/
def rtC : GameObject :=
  { baseEntity "C" (some "B") with
      hasMeshRenderer := true, hasMeshFilter := true, boundingBox := ⟨1, 1, 1⟩ }

/-- The round-trip scene {A, B, C} with resolved caches. -/
def sceneRT : Scene :=
  { gameObjects := [rtA, rtB, rtC]
    caches := resolve [rtA, rtB, rtC]
    resourcePaths := [] }

/-- A file environment with no files yet and all streams able to open. -/
def envRT : Env :=
  { files := fun _ => none, writeOk := fun _ => true, readOk := fun _ => true }

/-- A bystander root entity. -/
def c4X : GameObject := baseEntity "X" none

/-- A root entity with a two-level descendant chain. -/
def c4E : GameObject := baseEntity "E" none

/-- Child of `c4E`. -/
def c4C1 : GameObject := baseEntity "C1" (some "E")

/-- Grandchild of `c4E`. -/
def c4C2 : GameObject := baseEntity "C2" (some "C1")

/-- Scene with a bystander and the three-entity chain E → C1 → C2. -/
def sceneC4 : Scene :=
  { gameObjects := [c4X, c4E, c4C1, c4C2]
    caches := resolve [c4X, c4E, c4C1, c4C2]
    resourcePaths := [] }

/-- A root entity with one child, for the C5 scenario. -/
def c5P : GameObject := baseEntity "P" none

/-- The child of `c5P`. -/
def c5C : GameObject := baseEntity "C" (some "P")

/-- Scene holding just the parent `c5P` and its child `c5C`. -/
def sceneC5 : Scene :=
  { gameObjects := [c5P, c5C]
    caches := resolve [c5P, c5C]
    resourcePaths := [] }

/-- An environment in which no file exists. -/
def envNoFile : Env :=
  { files := fun _ => none, writeOk := fun _ => true, readOk := fun _ => true }

/-- An environment in which the file "s.directus" exists but no read stream
can be opened. -/
def envNoRead : Env :=
  { files := fun p => if p = "s.directus" then some [] else none
    writeOk := fun _ => true
    readOk := fun _ => false }

/-- A camera at the origin looking along +z with an identity unprojection:
with resolution 2×2 and mouse (1,1) the pick ray is origin (0,0,0),
direction (0,0,1). -/
def cam7 : CameraData :=
  { unproject := fun v => v
    nearPlane := 0
    farPlane := 1
    position := ⟨0, 0, 0⟩
    forward := ⟨0, 0, 1⟩ }

/-- A renderable with unit bounding extents sitting 5 units down +z: both
the pick ray and the camera-forward ray intersect its pick sphere. -/
def g7 : GameObject :=
  { baseEntity "G7" none with
      hasMeshRenderer := true, hasMeshFilter := true
      position := ⟨0, 0, 5⟩, boundingBox := ⟨1, 1, 1⟩ }

/-- Scene containing only the renderable `g7`. -/
def scene7 : Scene :=
  { gameObjects := [g7], caches := resolve [g7], resourcePaths := [] }

/-- A camera at (0,5,0) whose forward ray (along +x) misses the pick
spheres, with identity unprojection. -/
def cam8 : CameraData :=
  { unproject := fun v => v
    nearPlane := 0
    farPlane := 1
    position := ⟨0, 5, 0⟩
    forward := ⟨1, 0, 0⟩ }

/-- A renderable surviving both intersection tests but sitting exactly 1000
units from the camera position. -/
def g8 : GameObject :=
  { baseEntity "G8" none with
      hasMeshRenderer := true, hasMeshFilter := true
      position := ⟨0, 1005, 0⟩, boundingBox := ⟨1, 1, 1⟩ }

/-- Scene containing only the renderable `g8`. -/
def scene8 : Scene :=
  { gameObjects := [g8], caches := resolve [g8], resourcePaths := [] }

/-- A renderable surviving both intersection tests at distance 1200 from
the camera position. -/
def g10 : GameObject :=
  { baseEntity "G10" none with
      hasMeshRenderer := true, hasMeshFilter := true
      position := ⟨0, 1205, 0⟩, boundingBox := ⟨1, 1, 1⟩ }

/-- Scene containing only the renderable `g10`. -/
def scene10 : Scene :=
  { gameObjects := [g10], caches := resolve [g10], resourcePaths := [] }

/-! ## Helper lemmas about `resolveStep` and `resolve` -/

lemma resolveStep_mainCamera (c : Caches) (g : GameObject) :
    (resolveStep c g).mainCamera = if g.hasCamera then some g else c.mainCamera := by
  simp only [resolveStep]
  rcases hl : g.light with _ | lt
  · cases hc : g.hasCamera <;>
      cases hs : g.hasSkybox <;>
      cases hm : g.hasMeshRenderer && g.hasMeshFilter <;>
      simp [hl, hc, hs, hm]
  · cases lt <;>
      cases hc : g.hasCamera <;>
      cases hs : g.hasSkybox <;>
      cases hm : g.hasMeshRenderer && g.hasMeshFilter <;>
      simp [hl, hc, hs, hm]

lemma resolveStep_skybox (c : Caches) (g : GameObject) :
    (resolveStep c g).skybox = if g.hasSkybox then some g else c.skybox := by
  simp only [resolveStep]
  rcases hl : g.light with _ | lt
  · cases hc : g.hasCamera <;>
      cases hs : g.hasSkybox <;>
      cases hm : g.hasMeshRenderer && g.hasMeshFilter <;>
      simp [hl, hc, hs, hm]
  · cases lt <;>
      cases hc : g.hasCamera <;>
      cases hs : g.hasSkybox <;>
      cases hm : g.hasMeshRenderer && g.hasMeshFilter <;>
      simp [hl, hc, hs, hm]

lemma resolveStep_renderables (c : Caches) (g : GameObject) :
    (resolveStep c g).renderables =
      if g.hasMeshRenderer && g.hasMeshFilter then c.renderables ++ [g]
      else c.renderables := by
  simp only [resolveStep]
  rcases hl : g.light with _ | lt
  · cases hc : g.hasCamera <;>
      cases hs : g.hasSkybox <;>
      cases hm : g.hasMeshRenderer && g.hasMeshFilter <;>
      simp [hl, hc, hs, hm]
  · cases lt <;>
      cases hc : g.hasCamera <;>
      cases hs : g.hasSkybox <;>
      cases hm : g.hasMeshRenderer && g.hasMeshFilter <;>
      simp [hl, hc, hs, hm]

lemma resolveStep_lightsDirectional (c : Caches) (g : GameObject) :
    (resolveStep c g).lightsDirectional =
      if g.light == some LightType.Directional then c.lightsDirectional ++ [g]
      else c.lightsDirectional := by
  simp only [resolveStep]
  rcases hl : g.light with _ | lt
  · cases hc : g.hasCamera <;>
      cases hs : g.hasSkybox <;>
      cases hm : g.hasMeshRenderer && g.hasMeshFilter <;>
      simp [hl, hc, hs, hm]
  · cases lt <;>
      cases hc : g.hasCamera <;>
      cases hs : g.hasSkybox <;>
      cases hm : g.hasMeshRenderer && g.hasMeshFilter <;>
      simp [hl, hc, hs, hm]

lemma resolveStep_lightsPoint (c : Caches) (g : GameObject) :
    (resolveStep c g).lightsPoint =
      if g.light == some LightType.Point then c.lightsPoint ++ [g]
      else c.lightsPoint := by
  simp only [resolveStep]
  rcases hl : g.light with _ | lt
  · cases hc : g.hasCamera <;>
      cases hs : g.hasSkybox <;>
      cases hm : g.hasMeshRenderer && g.hasMeshFilter <;>
      simp [hl, hc, hs, hm]
  · cases lt <;>
      cases hc : g.hasCamera <;>
      cases hs : g.hasSkybox <;>
      cases hm : g.hasMeshRenderer && g.hasMeshFilter <;>
      simp [hl, hc, hs, hm]

lemma getLast?_cons_or {α : Type} (a : α) (l : List α) :
    (a :: l).getLast? = l.getLast?.or (some a) := by
  induction l generalizing a with
  | nil => rfl
  | cons b l ih =>
      rw [List.getLast?_cons_cons, ih b, Option.or_assoc]
      rfl

lemma foldl_resolveStep_mainCamera (gs : List GameObject) :
    ∀ c : Caches,
      (gs.foldl resolveStep c).mainCamera =
        ((gs.filter fun g => g.hasCamera).getLast?).or c.mainCamera := by
  induction gs with
  | nil => intro c; simp
  | cons g rest ih =>
      intro c
      rw [List.foldl_cons, ih, List.filter_cons]
      cases hc : g.hasCamera
      · simp [resolveStep_mainCamera, hc]
      · simp [resolveStep_mainCamera, hc, getLast?_cons_or, Option.or_assoc]

lemma foldl_resolveStep_skybox (gs : List GameObject) :
    ∀ c : Caches,
      (gs.foldl resolveStep c).skybox =
        ((gs.filter fun g => g.hasSkybox).getLast?).or c.skybox := by
  induction gs with
  | nil => intro c; simp
  | cons g rest ih =>
      intro c
      rw [List.foldl_cons, ih, List.filter_cons]
      cases hs : g.hasSkybox
      · simp [resolveStep_skybox, hs]
      · simp [resolveStep_skybox, hs, getLast?_cons_or, Option.or_assoc]

lemma foldl_resolveStep_renderables (gs : List GameObject) :
    ∀ c : Caches,
      (gs.foldl resolveStep c).renderables =
        c.renderables ++ gs.filter (fun g => g.hasMeshRenderer && g.hasMeshFilter) := by
  induction gs with
  | nil => intro c; simp
  | cons g rest ih =>
      intro c
      rw [List.foldl_cons, ih, List.filter_cons]
      cases hm : g.hasMeshRenderer && g.hasMeshFilter
      · simp [resolveStep_renderables, hm]
      · simp [resolveStep_renderables, hm]

lemma foldl_resolveStep_lightsDirectional (gs : List GameObject) :
    ∀ c : Caches,
      (gs.foldl resolveStep c).lightsDirectional =
        c.lightsDirectional ++ gs.filter (fun g => g.light == some LightType.Directional) := by
  induction gs with
  | nil => intro c; simp
  | cons g rest ih =>
      intro c
      rw [List.foldl_cons, ih, List.filter_cons]
      cases hm : g.light == some LightType.Directional
      · simp [resolveStep_lightsDirectional, hm]
      · simp [resolveStep_lightsDirectional, hm]

lemma foldl_resolveStep_lightsPoint (gs : List GameObject) :
    ∀ c : Caches,
      (gs.foldl resolveStep c).lightsPoint =
        c.lightsPoint ++ gs.filter (fun g => g.light == some LightType.Point) := by
  induction gs with
  | nil => intro c; simp
  | cons g rest ih =>
      intro c
      rw [List.foldl_cons, ih, List.filter_cons]
      cases hm : g.light == some LightType.Point
      · simp [resolveStep_lightsPoint, hm]
      · simp [resolveStep_lightsPoint, hm]

/-- Claim C2: `Resolve()` clears all derived caches and rebuilds them in one
pass over the entities in registry order; the renderable and light caches
become exactly the in-order classification of the registry, and when
several entities carry a `Camera` (respectively `Skybox`) component the
last such entity in registry order becomes the active camera (respectively
skybox) — every earlier match is silently overwritten, and the single
optional reference tracks at most one active camera/skybox. -/
theorem claim_C2_resolve_last_wins (gs : List GameObject) :
    (resolve gs).mainCamera = (gs.filter fun g => g.hasCamera).getLast? ∧
    (resolve gs).skybox = (gs.filter fun g => g.hasSkybox).getLast? ∧
    (resolve gs).renderables = gs.filter (fun g => g.hasMeshRenderer && g.hasMeshFilter) ∧
    (resolve gs).lightsDirectional = gs.filter (fun g => g.light == some LightType.Directional) ∧
    (resolve gs).lightsPoint = gs.filter (fun g => g.light == some LightType.Point) := by
  refine ⟨?_, ?_, ?_, ?_, ?_⟩
  · rw [resolve, foldl_resolveStep_mainCamera]; simp [emptyCaches]
  · rw [resolve, foldl_resolveStep_skybox]; simp [emptyCaches]
  · rw [resolve, foldl_resolveStep_renderables]; simp [emptyCaches]
  · rw [resolve, foldl_resolveStep_lightsDirectional]; simp [emptyCaches]
  · rw [resolve, foldl_resolveStep_lightsPoint]; simp [emptyCaches]

/-! ## Lookup helpers (claim C9) -/

lemma getGameObjectByID_eq_find? (gs : List GameObject) (ID : String) :
    getGameObjectByID gs ID = gs.find? (fun t => t.id == ID) := by
  induction gs with
  | nil => rfl
  | cons g rest ih =>
      simp only [getGameObjectByID, List.find?]
      by_cases h : g.id = ID
      · simp [h]
      · have hb : (g.id == ID) = false := by simp [h]
        simp [h, hb, ih]

/-- Claim C9: `GetGameObjectByID` is a linear scan returning the first
entity whose identifier matches (`List.find?` on the identifier) and null
when no such entity is present; `GameObjectExists` is false for a null
argument and true exactly when an entity carrying the argument's identifier
is in the registry. -/
theorem claim_C9_lookup (gs : List GameObject) (ID : String) (g : GameObject) :
    getGameObjectByID gs ID = gs.find? (fun t => t.id == ID) ∧
    (getGameObjectByID gs ID = none ↔ ∀ t ∈ gs, t.id ≠ ID) ∧
    gameObjectExists gs none = false ∧
    (gameObjectExists gs (some g) = true ↔ ∃ t ∈ gs, t.id = g.id) := by
  refine ⟨getGameObjectByID_eq_find? gs ID, ?_, rfl, ?_⟩
  · rw [getGameObjectByID_eq_find?, List.find?_eq_none]
    simp
  · simp only [gameObjectExists, getGameObjectByID_eq_find?, List.find?_isSome]
    simp

/-! ## Cache-consistency invariance (claim C3) -/

lemma sceneCreateGameObject_consistent (s : Scene) (g : GameObject) :
    (sceneCreateGameObject s g).caches = resolve (sceneCreateGameObject s g).gameObjects := rfl

lemma sceneRemoveSingle_consistent (s : Scene) (x : Option GameObject)
    (h : s.caches = resolve s.gameObjects) :
    (sceneRemoveSingle s x).caches = resolve (sceneRemoveSingle s x).gameObjects := by
  cases x with
  | none => exact h
  | some g =>
      by_cases ha : s.gameObjects.any (fun t => t.id == g.id)
      · simp [sceneRemoveSingle, ha]
      · simp [sceneRemoveSingle, ha, h]

lemma foldl_removeSingle_consistent (ds : List GameObject) :
    ∀ s : Scene, s.caches = resolve s.gameObjects →
      (ds.foldl (fun acc d => sceneRemoveSingle acc (some d)) s).caches =
        resolve ((ds.foldl (fun acc d => sceneRemoveSingle acc (some d)) s).gameObjects) := by
  induction ds with
  | nil => intro s h; exact h
  | cons d rest ih =>
      intro s h
      exact ih _ (sceneRemoveSingle_consistent s (some d) h)

lemma sceneRemoveGameObject_consistent (s : Scene) (x : Option GameObject)
    (h : s.caches = resolve s.gameObjects) :
    (sceneRemoveGameObject s x).caches = resolve (sceneRemoveGameObject s x).gameObjects := by
  cases x with
  | none => exact h
  | some g =>
      exact sceneRemoveSingle_consistent _ (some g)
        (foldl_removeSingle_consistent _ s h)

/-- Claim C3: provided the caches agree with the registry initially, after
every sequence of `CreateGameObject`/`RemoveGameObject` operations the
derived caches (active camera, active skybox, renderables, directional
lights, point lights) equal the classification recomputed from scratch by
`resolve` over the current entity set; and `Resolve` run twice with no
intervening mutation yields the same scene state as running it once
(`Resolve` is idempotent). -/
theorem claim_C3_cache_consistency (s : Scene) (ops : List SceneOp)
    (h : s.caches = resolve s.gameObjects) :
    (applyOps s ops).caches = resolve (applyOps s ops).gameObjects ∧
    ∀ t : Scene, sceneResolve (sceneResolve t) = sceneResolve t := by
  refine ⟨?_, fun t => rfl⟩
  induction ops generalizing s with
  | nil => exact h
  | cons op rest ih =>
      refine ih (applyOp s op) ?_
      cases op with
      | create g => exact sceneCreateGameObject_consistent s g
      | remove x => exact sceneRemoveGameObject_consistent s x h

/-! ## Removal lemmas (claims C4 and C5) -/

lemma removeSingle_of_not_mem (gs : List GameObject) (id : String)
    (h : ∀ g ∈ gs, g.id ≠ id) : removeSingleGameObject gs id = gs := by
  induction gs with
  | nil => rfl
  | cons g rest ih =>
      have hg : g.id ≠ id := h g (List.mem_cons_self g rest)
      simp only [removeSingleGameObject, if_neg hg]
      rw [ih (fun t ht => h t (List.mem_cons_of_mem g ht))]

lemma removeSingle_length (gs : List GameObject) (id : String)
    (h : ∃ g ∈ gs, g.id = id) :
    (removeSingleGameObject gs id).length + 1 = gs.length := by
  induction gs with
  | nil => simp at h
  | cons g rest ih =>
      by_cases hg : g.id = id
      · simp [removeSingleGameObject, hg]
      · obtain ⟨t, ht, hid⟩ := h
        rcases List.mem_cons.mp ht with rfl | ht'
        · exact absurd hid hg
        · simp only [removeSingleGameObject, if_neg hg, List.length_cons]
          rw [← ih ⟨t, ht', hid⟩]

lemma removeSingle_filter (gs : List GameObject) (id : String)
    (h : (gs.map GameObject.id).Nodup) :
    removeSingleGameObject gs id = gs.filter (fun g => !(g.id == id)) := by
  induction gs with
  | nil => rfl
  | cons g rest ih =>
      rw [List.map_cons, List.nodup_cons] at h
      by_cases hg : g.id = id
      · have hmem : ∀ t ∈ rest, (!(t.id == id)) = true := by
          intro t ht
          have hne : t.id ≠ id := by
            intro he
            have : g.id ∈ List.map GameObject.id rest := by
              rw [hg, ← he]
              exact List.mem_map_of_mem GameObject.id ht
            exact h.1 this
          simp [hne]
        have hgb : (!(g.id == id)) = false := by simp [hg]
        have hrest : List.filter (fun t => !(t.id == id)) rest = rest :=
          List.filter_eq_self.mpr hmem
        simp only [removeSingleGameObject, if_pos hg, List.filter_cons, hgb]
        simp [hrest]
      · have hgb : (!(g.id == id)) = true := by simp [hg]
        simp only [removeSingleGameObject, if_neg hg, List.filter_cons, hgb, if_pos]
        rw [ih h.2]

lemma foldl_removeSingle_filter (rm : List GameObject) :
    ∀ gs : List GameObject, (gs.map GameObject.id).Nodup →
      rm.foldl (fun acc d => removeSingleGameObject acc d.id) gs
        = gs.filter (fun g => rm.all (fun d => !(g.id == d.id))) := by
  induction rm with
  | nil => intro gs _; simp
  | cons d rm ih =>
      intro gs h
      rw [List.foldl_cons]
      have hstep : removeSingleGameObject gs d.id = gs.filter (fun g => !(g.id == d.id)) :=
        removeSingle_filter gs d.id h
      have hnd : ((gs.filter (fun g => !(g.id == d.id))).map GameObject.id).Nodup :=
        List.Nodup.sublist (List.Sublist.map GameObject.id (List.filter_sublist gs)) h
      rw [hstep, ih _ hnd, List.filter_filter]
      refine List.filter_congr ?_
      intro g _
      simp [Bool.and_comm]

lemma foldl_remove_length (rm : List GameObject) :
    ∀ gs : List GameObject, (gs.map GameObject.id).Nodup →
      (rm.map GameObject.id).Nodup →
      (∀ d ∈ rm, ∃ g ∈ gs, g.id = d.id) →
      (rm.foldl (fun acc d => removeSingleGameObject acc d.id) gs).length + rm.length
        = gs.length := by
  induction rm with
  | nil => intro gs _ _ _; simp
  | cons d rm ih =>
      intro gs hgs hrm hsub
      rw [List.map_cons, List.nodup_cons] at hrm
      rw [List.foldl_cons]
      have h1 : (removeSingleGameObject gs d.id).length + 1 = gs.length :=
        removeSingle_length gs d.id (hsub d (List.mem_cons_self d rm))
      have hfil : removeSingleGameObject gs d.id = gs.filter (fun g => !(g.id == d.id)) :=
        removeSingle_filter gs d.id hgs
      have hgs' : ((removeSingleGameObject gs d.id).map GameObject.id).Nodup := by
        rw [hfil]
        exact List.Nodup.sublist (List.Sublist.map GameObject.id (List.filter_sublist gs)) hgs
      have hsub' : ∀ e ∈ rm, ∃ g ∈ removeSingleGameObject gs d.id, g.id = e.id := by
        intro e he
        obtain ⟨g, hg, hid⟩ := hsub e (List.mem_cons_of_mem d he)
        refine ⟨g, ?_, hid⟩
        rw [hfil, List.mem_filter]
        refine ⟨hg, ?_⟩
        have : g.id ≠ d.id := by
          intro hEq
          exact hrm.1 (hEq ▸ hid ▸ List.mem_map_of_mem GameObject.id he)
        simp [this]
      have h2 := ih (removeSingleGameObject gs d.id) hgs' hrm.2 hsub'
      simp only [List.length_cons]
      omega

lemma descendantsAux_subset (gs : List GameObject) (fuel : Nat) :
    ∀ id : String, ∀ g ∈ descendantsAux gs fuel id, g ∈ gs := by
  induction fuel with
  | zero => intro id g hg; simp [descendantsAux] at hg
  | succ fuel ih =>
      intro id g hg
      simp only [descendantsAux, List.mem_flatMap] at hg
      obtain ⟨c, hc, hg⟩ := hg
      have hcgs : c ∈ gs := (List.mem_filter.mp hc).1
      rcases List.mem_cons.mp hg with rfl | hg'
      · exact hcgs
      · exact ih c.id g hg'

lemma descendants_subset (gs : List GameObject) (id : String) :
    ∀ g ∈ descendants gs id, g ∈ gs :=
  descendantsAux_subset gs gs.length id

lemma sceneRemoveSingle_gameObjects (s : Scene) (d : GameObject) :
    (sceneRemoveSingle s (some d)).gameObjects
      = removeSingleGameObject s.gameObjects d.id := by
  by_cases ha : s.gameObjects.any (fun t => t.id == d.id)
  · simp [sceneRemoveSingle, ha]
  · have hno : ∀ t ∈ s.gameObjects, t.id ≠ d.id := by
      intro t ht he
      apply ha
      rw [List.any_eq_true]
      exact ⟨t, ht, by simp [he]⟩
    simp [sceneRemoveSingle, ha, removeSingle_of_not_mem _ _ hno]

lemma foldl_sceneRemoveSingle_gameObjects (ds : List GameObject) :
    ∀ s : Scene,
      ((ds.foldl (fun acc d => sceneRemoveSingle acc (some d)) s).gameObjects)
        = ds.foldl (fun acc d => removeSingleGameObject acc d.id) s.gameObjects := by
  induction ds with
  | nil => intro s; rfl
  | cons d rest ih =>
      intro s
      rw [List.foldl_cons, List.foldl_cons, ih, sceneRemoveSingle_gameObjects]

lemma sceneRemoveSingle_caches_of_mem (s : Scene) (g : GameObject)
    (h : ∃ t ∈ s.gameObjects, t.id = g.id) :
    (sceneRemoveSingle s (some g)).caches
      = resolve (sceneRemoveSingle s (some g)).gameObjects := by
  have ha : s.gameObjects.any (fun t => t.id == g.id) = true := by
    obtain ⟨t, ht, hid⟩ := h
    exact List.any_eq_true.mpr ⟨t, ht, by simp [hid]⟩
  simp [sceneRemoveSingle, ha]

lemma sceneRemoveGameObject_gameObjects (s : Scene) (E : GameObject) :
    (sceneRemoveGameObject s (some E)).gameObjects
      = (descendants s.gameObjects E.id ++ [E]).foldl
          (fun acc d => removeSingleGameObject acc d.id) s.gameObjects := by
  show (sceneRemoveSingle _ (some E)).gameObjects = _
  rw [List.foldl_append, sceneRemoveSingle_gameObjects,
    foldl_sceneRemoveSingle_gameObjects]
  rfl

lemma sceneRemoveGameObject_filter (s : Scene) (E : GameObject)
    (hnodup : (s.gameObjects.map GameObject.id).Nodup) :
    (sceneRemoveGameObject s (some E)).gameObjects
      = s.gameObjects.filter
          (fun g => (descendants s.gameObjects E.id ++ [E]).all (fun d => !(g.id == d.id))) := by
  rw [sceneRemoveGameObject_gameObjects, foldl_removeSingle_filter _ _ hnodup]

/-- Claim C4: for an entity `E` of the registry with `N` collected
descendants, `RemoveGameObject(E)` removes exactly `N + 1` entities — under
the natural side conditions that registry identifiers are unique and that
`E` together with its collected descendants carry pairwise distinct
identifiers.  Each removal matches by string identifier (the surviving
registry is exactly the identifier-based filter), and the caches are
re-resolved against the final registry. -/
theorem claim_C4_remove_count (s : Scene) (E : GameObject)
    (hmem : E ∈ s.gameObjects)
    (hnodup : (s.gameObjects.map GameObject.id).Nodup)
    (hacyc : ((E :: descendants s.gameObjects E.id).map GameObject.id).Nodup) :
    (sceneRemoveGameObject s (some E)).gameObjects.length
        + ((descendants s.gameObjects E.id).length + 1) = s.gameObjects.length ∧
    (sceneRemoveGameObject s (some E)).gameObjects
        = s.gameObjects.filter
            (fun g => (descendants s.gameObjects E.id ++ [E]).all (fun d => !(g.id == d.id))) ∧
    (sceneRemoveGameObject s (some E)).caches
        = resolve (sceneRemoveGameObject s (some E)).gameObjects := by
  have hgos := sceneRemoveGameObject_gameObjects s E
  have hrmperm :
      ((descendants s.gameObjects E.id ++ [E]).map GameObject.id).Perm
        ((E :: descendants s.gameObjects E.id).map GameObject.id) :=
    List.Perm.map GameObject.id (List.perm_append_singleton E _)
  have hrm : ((descendants s.gameObjects E.id ++ [E]).map GameObject.id).Nodup :=
    hrmperm.nodup_iff.mpr hacyc
  have hsub : ∀ d ∈ descendants s.gameObjects E.id ++ [E], ∃ g ∈ s.gameObjects, g.id = d.id := by
    intro d hd
    rcases List.mem_append.mp hd with hd' | hd'
    · exact ⟨d, descendants_subset _ _ d hd', rfl⟩
    · have hde : d = E := List.mem_singleton.mp hd'
      exact ⟨E, hmem, by rw [hde]⟩
  refine ⟨?_, ?_, ?_⟩
  · rw [hgos]
    have := foldl_remove_length (descendants s.gameObjects E.id ++ [E])
      s.gameObjects hnodup hrm hsub
    simp only [List.length_append, List.length_cons, List.length_nil] at this
    omega
  · rw [hgos, foldl_removeSingle_filter _ _ hnodup]
  · show (sceneRemoveSingle _ (some E)).caches = _
    refine sceneRemoveSingle_caches_of_mem _ E ?_
    refine ⟨E, ?_, rfl⟩
    rw [foldl_sceneRemoveSingle_gameObjects, foldl_removeSingle_filter _ _ hnodup,
      List.mem_filter]
    refine ⟨hmem, ?_⟩
    rw [List.map_cons, List.nodup_cons] at hacyc
    rw [List.all_eq_true]
    intro d hd
    have hne : E.id ≠ d.id := by
      intro he
      apply hacyc.1
      have hmm : d.id ∈ List.map GameObject.id (descendants s.gameObjects E.id) :=
        List.mem_map_of_mem GameObject.id hd
      rw [← he] at hmm
      exact hmm
    simp [hne]

/-- Claim C4 witness: the theorem applied to the concrete scene
{X, E, E→C1, C1→C2}, where E has 2 collected descendants, so 3 of the 4
entities are removed. -/
theorem claim_C4_remove_count_witness :
    (sceneRemoveGameObject sceneC4 (some c4E)).gameObjects.length
        + ((descendants sceneC4.gameObjects c4E.id).length + 1) = sceneC4.gameObjects.length ∧
    (sceneRemoveGameObject sceneC4 (some c4E)).gameObjects
        = sceneC4.gameObjects.filter
            (fun g => (descendants sceneC4.gameObjects c4E.id ++ [c4E]).all (fun d => !(g.id == d.id))) ∧
    (sceneRemoveGameObject sceneC4 (some c4E)).caches
        = resolve (sceneRemoveGameObject sceneC4 (some c4E)).gameObjects :=
  claim_C4_remove_count sceneC4 c4E (by decide) (by decide) (by decide)

/-- Claim C3 witness: the invariance theorem applied to a concrete scene
and a concrete create-then-remove sequence. -/
theorem claim_C3_cache_consistency_witness :
    (applyOps sceneC4 [SceneOp.create (baseEntity "Y" none), SceneOp.remove (some c4C1)]).caches
      = resolve (applyOps sceneC4
          [SceneOp.create (baseEntity "Y" none), SceneOp.remove (some c4C1)]).gameObjects :=
  (claim_C3_cache_consistency sceneC4
    [SceneOp.create (baseEntity "Y" none), SceneOp.remove (some c4C1)] rfl).1

/-- Claim C5 counterexample: in the concrete scene where `c5P` has the
single child `c5C`, `RemoveGameObject(c5P)` empties the registry — the
child does NOT remain present (and a fortiori is not reparented as a root),
refuting the claim as stated. -/
theorem claim_C5_counterexample :
    c5C ∈ sceneC5.gameObjects ∧ c5C.parent = some c5P.id ∧
    (sceneRemoveGameObject sceneC5 (some c5P)).gameObjects = [] := by decide

/-- Claim C5 (amended): after `RemoveGameObject(E)` the children of `E` do
not remain in the registry: every descendant collected from `E` (its
children included) is removed together with `E` — assuming unique registry
identifiers, no surviving entity carries a removed descendant's identifier.
The former parent's child-set bookkeeping is re-resolved, which changes no
registry entry. -/
theorem claim_C5_amended (s : Scene) (E : GameObject)
    (hnodup : (s.gameObjects.map GameObject.id).Nodup) :
    ∀ d ∈ descendants s.gameObjects E.id,
      ∀ g ∈ (sceneRemoveGameObject s (some E)).gameObjects, g.id ≠ d.id := by
  intro d hd g hg
  rw [sceneRemoveGameObject_filter s E hnodup, List.mem_filter] at hg
  have hall := List.all_eq_true.mp hg.2 d (List.mem_append.mpr (Or.inl hd))
  simpa using hall

/-- Claim C5 amended-witness: in the concrete parent/child scene, every
surviving entity differs in identifier from the removed child `c5C`. -/
theorem claim_C5_amended_witness :
    ((sceneRemoveGameObject sceneC5 (some c5P)).gameObjects.all
      (fun g => g.id ≠ c5C.id)) = true := by
  have h := claim_C5_amended sceneC5 c5P (by decide)
  rw [List.all_eq_true]
  intro g hg
  have hd : c5C ∈ descendants sceneC5.gameObjects c5P.id := by decide
  simpa using h c5C hd g hg

/-- Claim C1: save-then-load round-trip for the scene {A (root, Camera),
B (root, directional Light), C (child of B, MeshRenderer+MeshFilter)}:
`SaveToFile("x")` succeeds and writes the file at "x" plus the scene
extension; after `Clear()` then `LoadFromFile("x.<ext>")` the reloaded
registry has the same entity count, the same identifiers, the same
parent/child relationships, and the re-resolved caches identify A as the
active camera, B as the sole directional light and C as the sole
renderable. -/
theorem claim_C1_roundtrip :
    (saveToFile envRT sceneRT "x").1 = true ∧
    (((saveToFile envRT sceneRT "x").2.files ("x" ++ sceneExtension)).isSome = true) ∧
    (loadFromFile (saveToFile envRT sceneRT "x").2 (clearScene sceneRT)
        ("x" ++ sceneExtension)).1 = true ∧
    (loadFromFile (saveToFile envRT sceneRT "x").2 (clearScene sceneRT)
        ("x" ++ sceneExtension)).2.gameObjects.length = sceneRT.gameObjects.length ∧
    (loadFromFile (saveToFile envRT sceneRT "x").2 (clearScene sceneRT)
        ("x" ++ sceneExtension)).2.gameObjects.map GameObject.id
      = sceneRT.gameObjects.map GameObject.id ∧
    (loadFromFile (saveToFile envRT sceneRT "x").2 (clearScene sceneRT)
        ("x" ++ sceneExtension)).2.gameObjects.map GameObject.parent
      = sceneRT.gameObjects.map GameObject.parent ∧
    (loadFromFile (saveToFile envRT sceneRT "x").2 (clearScene sceneRT)
        ("x" ++ sceneExtension)).2.caches.mainCamera = some rtA ∧
    (loadFromFile (saveToFile envRT sceneRT "x").2 (clearScene sceneRT)
        ("x" ++ sceneExtension)).2.caches.lightsDirectional = [rtB] ∧
    (loadFromFile (saveToFile envRT sceneRT "x").2 (clearScene sceneRT)
        ("x" ++ sceneExtension)).2.caches.renderables = [rtC] ∧
    (loadFromFile (saveToFile envRT sceneRT "x").2 (clearScene sceneRT)
        ("x" ++ sceneExtension)).2.caches.skybox = none ∧
    (loadFromFile (saveToFile envRT sceneRT "x").2 (clearScene sceneRT)
        ("x" ++ sceneExtension)).2.caches.lightsPoint = [] := by decide

/-- Claim C6: `LoadFromFile` returns false and leaves the registry in its
pre-call state when the file does not exist (the existence check precedes
`Clear()`); when the file exists but the read stream fails to open strictly
after `Clear()` has run, it returns false and leaves the registry empty.
Failure is communicated solely through the boolean result (the embedding,
like the code, has no exception channel). -/
theorem claim_C6_load_failure (env : Env) (s : Scene) (path : String) :
    (env.files path = none → loadFromFile env s path = (false, s)) ∧
    (∀ ts, env.files path = some ts → env.readOk path = false →
      loadFromFile env s path = (false, clearScene s) ∧
      (loadFromFile env s path).2.gameObjects = []) := by
  constructor
  · intro h
    simp [loadFromFile, h]
  · intro ts hts hro
    have hload : loadFromFile env s path = (false, clearScene s) := by
      simp [loadFromFile, hts, hro]
    exact ⟨hload, by rw [hload]; rfl⟩

/-- Claim C6 witness: the theorem applied to a concrete missing file
(registry untouched) and to a concrete unopenable file (registry emptied
after the clear). -/
theorem claim_C6_load_failure_witness :
    loadFromFile envNoFile sceneRT "nope" = (false, sceneRT) ∧
    loadFromFile envNoRead sceneRT "s.directus" = (false, clearScene sceneRT) ∧
    (loadFromFile envNoRead sceneRT "s.directus").2.gameObjects = [] :=
  ⟨(claim_C6_load_failure envNoFile sceneRT "nope").1 rfl,
   ((claim_C6_load_failure envNoRead sceneRT "s.directus").2 [] (by decide) rfl).1,
   ((claim_C6_load_failure envNoRead sceneRT "s.directus").2 [] (by decide) rfl).2⟩

/-! ## Picking lemmas (claims C7, C8, C10) -/

lemma pickLoop_filter (o d : Vec3) (cam : CameraData) (rs : List GameObject) :
    pickLoop o d cam rs = rs.filter (fun g =>
      !g.hasSkybox && raySphereIntersect o d (boundingRadius g.boundingBox)
        && !raySphereIntersect cam.position cam.forward (boundingRadius g.boundingBox)) := by
  induction rs with
  | nil => rfl
  | cons g rest ih =>
      simp only [pickLoop, List.filter_cons]
      cases hs : g.hasSkybox
      · cases ht1 : raySphereIntersect o d (boundingRadius g.boundingBox)
        · simp [hs, ht1, ih]
        · cases ht2 : raySphereIntersect cam.position cam.forward (boundingRadius g.boundingBox)
          · simp [hs, ht1, ht2, ih]
          · simp [hs, ht1, ht2, ih]
      · simp [hs, ih]

lemma findClosest_cases (cam : CameraData) (cands : List GameObject) :
    ∀ (m : ℚ) (b : Option GameObject),
      ((∀ g ∈ cands, m ≤ distanceSq cam g) ∧ findClosest cam m b cands = b) ∨
      (∃ l₁ t l₂, cands = l₁ ++ t :: l₂ ∧ findClosest cam m b cands = some t ∧
        distanceSq cam t < m ∧
        (∀ g ∈ l₁, distanceSq cam t < distanceSq cam g) ∧
        (∀ g ∈ cands, distanceSq cam t ≤ distanceSq cam g)) := by
  induction cands with
  | nil =>
      intro m b
      left
      exact ⟨by simp, rfl⟩
  | cons g rest ih =>
      intro m b
      by_cases hlt : distanceSq cam g < m
      · rcases ih (distanceSq cam g) (some g) with ⟨hall, heq⟩ |
          ⟨l₁, t, l₂, hsplit, heq, hm, hbef, hmin⟩
        · right
          refine ⟨[], g, rest, by simp, ?_, hlt, by simp, ?_⟩
          · simp only [findClosest, if_pos hlt]
            exact heq
          · intro u hu
            rcases List.mem_cons.mp hu with rfl | hu'
            · exact le_refl _
            · exact hall u hu'
        · right
          refine ⟨g :: l₁, t, l₂, by rw [hsplit]; rfl, ?_, lt_trans hm hlt, ?_, ?_⟩
          · simp only [findClosest, if_pos hlt]
            exact heq
          · intro u hu
            rcases List.mem_cons.mp hu with rfl | hu'
            · exact hm
            · exact hbef u hu'
          · intro u hu
            rcases List.mem_cons.mp hu with rfl | hu'
            · exact le_of_lt hm
            · exact hmin u (hsplit ▸ hu')
      · rcases ih m b with ⟨hall, heq⟩ | ⟨l₁, t, l₂, hsplit, heq, hm, hbef, hmin⟩
        · left
          refine ⟨?_, ?_⟩
          · intro u hu
            rcases List.mem_cons.mp hu with rfl | hu'
            · exact not_lt.mp hlt
            · exact hall u hu'
          · simp only [findClosest, if_neg hlt]
            exact heq
        · right
          refine ⟨g :: l₁, t, l₂, by rw [hsplit]; rfl, ?_, hm, ?_, ?_⟩
          · simp only [findClosest, if_neg hlt]
            exact heq
          · intro u hu
            rcases List.mem_cons.mp hu with rfl | hu'
            · exact lt_of_lt_of_le hm (not_lt.mp hlt)
            · exact hbef u hu'
          · intro u hu
            rcases List.mem_cons.mp hu with rfl | hu'
            · exact le_trans (le_of_lt hm) (not_lt.mp hlt)
            · exact hmin u (hsplit ▸ hu')

/-- Claim C7 counterexample: a renderable whose bounding sphere BOTH the
pick ray and the camera-forward ray intersect is discarded by the code
(`pickCandidates` is empty and the pick returns nothing), while the
claim's both-tests-pass filter would keep it — the claimed candidate rule
is the negation of what the code implements. -/
theorem claim_C7_counterexample :
    pickCandidatesClaimed cam7 scene7.caches.renderables (1, 1) 2 2 = [g7] ∧
    pickCandidates cam7 scene7.caches.renderables (1, 1) 2 2 = [] ∧
    mousePick cam7 scene7 (1, 1) 2 2 = none := by
  refine ⟨?_, ?_, ?_⟩ <;>
    norm_num [pickCandidatesClaimed, pickCandidates, pickRay, pickLoop, raySphereIntersect,
      boundingRadius, mousePick, findClosest, distanceSq, resolve, resolveStep, emptyCaches,
      scene7, cam7, g7, baseEntity]

/-- Claim C7 (amended): a renderable reaches the closest-selection stage
exactly when it is not the skybox, the pick ray intersects its bounding
sphere, and the ray from the camera position along the camera forward
vector does NOT also intersect it — the secondary check discards a
candidate precisely when the camera-forward ray DOES intersect its
sphere. -/
theorem claim_C7_amended (cam : CameraData) (rs : List GameObject)
    (mousePos : ℚ × ℚ) (resW resH : ℚ) :
    pickCandidates cam rs mousePos resW resH
      = rs.filter (fun g =>
          !g.hasSkybox
            && raySphereIntersect (pickRay cam mousePos resW resH).1
                 (pickRay cam mousePos resW resH).2 (boundingRadius g.boundingBox)
            && !raySphereIntersect cam.position cam.forward (boundingRadius g.boundingBox)) := by
  unfold pickCandidates
  exact pickLoop_filter _ _ cam rs

/-- Claim C8 counterexample: the renderable `g8` survives both
intersection tests (it is the single surviving candidate) yet `MousePick`
returns no result, because its camera distance is exactly 1000 — so the
claim "among surviving candidates the closest is returned, null only when
no renderable intersects" fails as stated. -/
theorem claim_C8_counterexample :
    pickCandidates cam8 scene8.caches.renderables (1, 1) 2 2 = [g8] ∧
    mousePick cam8 scene8 (1, 1) 2 2 = none := by
  refine ⟨?_, ?_⟩ <;>
    norm_num [pickCandidates, pickRay, pickLoop, raySphereIntersect, boundingRadius,
      mousePick, findClosest, distanceSq, resolve, resolveStep, emptyCaches,
      scene8, cam8, g8, baseEntity]

/-- Claim C8 (amended): among the candidates surviving the intersection
tests, `MousePick` returns the first candidate (iteration order, so ties go
to the first encountered) attaining the minimal camera distance, provided
that distance is strictly below 1000 world units (squared: 1000000); it
returns no result exactly when every surviving candidate — in particular
when none exists — lies at squared distance at least 1000000. -/
theorem claim_C8_amended (cam : CameraData) (s : Scene)
    (mousePos : ℚ × ℚ) (resW resH : ℚ) :
    (mousePick cam s mousePos resW resH = none ↔
      ∀ g ∈ pickCandidates cam s.caches.renderables mousePos resW resH,
        1000000 ≤ distanceSq cam g) ∧
    (∀ g, mousePick cam s mousePos resW resH = some g →
      ∃ l₁ l₂, pickCandidates cam s.caches.renderables mousePos resW resH = l₁ ++ g :: l₂ ∧
        distanceSq cam g < 1000000 ∧
        (∀ t ∈ l₁, distanceSq cam g < distanceSq cam t) ∧
        (∀ t ∈ pickCandidates cam s.caches.renderables mousePos resW resH,
          distanceSq cam g ≤ distanceSq cam t)) := by
  have hc := findClosest_cases cam
    (pickCandidates cam s.caches.renderables mousePos resW resH) 1000000 none
  constructor
  · constructor
    · intro hnone
      rcases hc with ⟨hall, _⟩ | ⟨l₁, t, l₂, _, heq, _, _, _⟩
      · exact hall
      · rw [mousePick, heq] at hnone
        cases hnone
    · intro hall
      rcases hc with ⟨_, heq⟩ | ⟨l₁, t, l₂, hsplit, _, hm, _, _⟩
      · exact heq
      · exfalso
        have ht : t ∈ pickCandidates cam s.caches.renderables mousePos resW resH := by
          rw [hsplit]
          exact List.mem_append.mpr (Or.inr (List.mem_cons_self t l₂))
        exact absurd hm (not_lt.mpr (hall t ht))
  · intro g hg
    rcases hc with ⟨_, heq⟩ | ⟨l₁, t, l₂, hsplit, heq, hm, hbef, hmin⟩
    · rw [mousePick, heq] at hg
      cases hg
    · rw [mousePick, heq] at hg
      have hgt : t = g := Option.some.inj hg
      subst hgt
      exact ⟨l₁, l₂, hsplit, hm, hbef, hmin⟩

/-- Claim C8 amended-witness: at the concrete camera/scene where the only
surviving candidate is 1000 units away, the pick indeed returns nothing. -/
theorem claim_C8_amended_witness :
    mousePick cam8 scene8 (1, 1) 2 2 = none :=
  (claim_C8_amended cam8 scene8 (1, 1) 2 2).1.mpr (by
    norm_num [pickCandidates, pickRay, pickLoop, raySphereIntersect, boundingRadius,
      distanceSq, resolve, resolveStep, emptyCaches, scene8, cam8, g8, baseEntity])

/-- Claim C10: if `MousePick` returns an entity then that entity's camera
distance is strictly below 1000 world units (squared: below 1000000,
because the closest-selection loop initialises its running minimum to
1000); and when every surviving candidate lies at distance 1000 or more,
`MousePick` returns no result even though intersecting renderables
exist. -/
theorem claim_C10_pick_distance_bound (cam : CameraData) (s : Scene)
    (mousePos : ℚ × ℚ) (resW resH : ℚ) :
    (∀ g, mousePick cam s mousePos resW resH = some g →
      distanceSq cam g < 1000000) ∧
    ((∀ g ∈ pickCandidates cam s.caches.renderables mousePos resW resH,
        1000000 ≤ distanceSq cam g) →
      mousePick cam s mousePos resW resH = none) := by
  have hc := findClosest_cases cam
    (pickCandidates cam s.caches.renderables mousePos resW resH) 1000000 none
  constructor
  · intro g hg
    rcases hc with ⟨_, heq⟩ | ⟨l₁, t, l₂, _, heq, hm, _, _⟩
    · rw [mousePick, heq] at hg
      cases hg
    · rw [mousePick, heq] at hg
      have hgt : t = g := Option.some.inj hg
      subst hgt
      exact hm
  · intro hall
    rcases hc with ⟨_, heq⟩ | ⟨l₁, t, l₂, hsplit, _, hm, _, _⟩
    · exact heq
    · exfalso
      have ht : t ∈ pickCandidates cam s.caches.renderables mousePos resW resH := by
        rw [hsplit]
        exact List.mem_append.mpr (Or.inr (List.mem_cons_self t l₂))
      exact absurd hm (not_lt.mpr (hall t ht))

/-- Claim C10 witness: the renderable `g10` survives the intersection tests
at squared distance 1440000 (1200 units), and `MousePick` returns no
result. -/
theorem claim_C10_pick_distance_bound_witness :
    pickCandidates cam8 scene10.caches.renderables (1, 1) 2 2 = [g10] ∧
    mousePick cam8 scene10 (1, 1) 2 2 = none :=
  ⟨by
    norm_num [pickCandidates, pickRay, pickLoop, raySphereIntersect, boundingRadius,
      resolve, resolveStep, emptyCaches, scene10, cam8, g10, baseEntity],
   (claim_C10_pick_distance_bound cam8 scene10 (1, 1) 2 2).2 (by
    norm_num [pickCandidates, pickRay, pickLoop, raySphereIntersect, boundingRadius,
      distanceSq, resolve, resolveStep, emptyCaches, scene10, cam8, g10, baseEntity])⟩

end SpartanScene
